import Mathlib

/-!
Verification of the JILI reverse-proxy core of `server.js`.

The development shallowly embeds the pure decision logic of the source:
strings are `List Char`, HTTP responses are records of the fields the code
reads, and the global regex substitutions of the source are modelled as
left-to-right scans with the exact matching semantics of the JavaScript
regexes involved (greedy character classes, leftmost match, continuation
after the matched span, no rescanning of replacements).

Platform primitives that the source calls (the WHATWG URL constructor
`new URL`, the HTTP transport) are not part of the repository; theorems
that depend on URL parsing are parameterized over an arbitrary parser
`parse : List Char -> Option UrlParts`, and `parseUrlSimple` below is a
small executable stand-in used only to instantiate witnesses on simple
absolute http(s) URLs, where it agrees with the platform parser.
-/

/-- The single-quote character, written via its code point. -/
def squote : Char := Char.ofNat 39

/-- The double-quote character, written via its code point. -/
def dquote : Char := Char.ofNat 34

/-- The character class `[a-zA-Z0-9.-]` used by every hostname regex in
`server.js` (lines 667, 730, 2143, 2151). -/
def hostChar (c : Char) : Bool := c.isAlphanum || c == '.' || c == '-'

/-- The allowed-host suffix of the JILI provider, as the bare string the
source compares against (`u.hostname.endsWith('jiligames.com')`, line 656). -/
def jiliSuffix : List Char := "jiligames.com".data

/-- Characters matched by `.` in a JavaScript regex without the `s` flag:
everything except the four line terminators LF, CR, U+2028, U+2029. -/
def regexDot (c : Char) : Bool :=
  !(c == '\n' || c == '\r' || c.toNat == 0x2028 || c.toNat == 0x2029)

/-- Characters matched by `\s` in a JavaScript regex. -/
def jsSpace (c : Char) : Bool :=
  c == ' ' || c == '\t' || c == '\n' || c == '\r' || c == '\x0b' || c == '\x0c' ||
  c.toNat == 0x00a0 || c.toNat == 0x1680 ||
  (0x2000 <= c.toNat && c.toNat <= 0x200a) ||
  c.toNat == 0x2028 || c.toNat == 0x2029 || c.toNat == 0x202f ||
  c.toNat == 0x205f || c.toNat == 0x3000 || c.toNat == 0xfeff

/-- The character class `[^"'<>\s]` of the HTML rewrite regex (line 667). -/
def pathChar (c : Char) : Bool :=
  !(c == dquote || c == squote || c == '<' || c == '>' || jsSpace c)

/-- A parsed absolute URL, at the level of the three fields `server.js`
reads from the result of `new URL`: `hostname`, `pathname`, `search`. -/
structure UrlParts where
  hostname : List Char
  pathname : List Char
  search : List Char
deriving DecidableEq, Repr

/-- Guarantees the WHATWG URL parser gives for a parsed special-scheme URL
with an ASCII DNS-style hostname: the hostname is a nonempty string over
`[a-zA-Z0-9.-]`; the pathname starts with a slash and contains no raw
question mark (a question mark in a path is percent-encoded); the search
is empty or starts with a question mark and contains no raw line
terminator (those are stripped or percent-encoded by the parser). -/
def wellFormedUrl (u : UrlParts) : Bool :=
  !u.hostname.isEmpty && u.hostname.all hostChar &&
  u.pathname.headD ' ' == '/' && u.pathname.all (fun c => !(c == '?')) &&
  (u.search.isEmpty || (u.search.headD ' ' == '?' && u.search.all regexDot))

/-- The configured JILI domain list (`JILI_DOMAINS`, lines 645-649).
`toProxyPath` below never reads it; the source checks a bare suffix. -/
def JILI_DOMAINS : List (List Char) :=
  ["jiligames.com".data, "uat-wb-api.jiligames.com".data,
   "casino-wbgame.jiligames.com".data]

/-- `toProxyPath` (lines 652-661): on a parsed URL whose hostname ends with
the literal suffix `jiligames.com`, returns `/jili/` + host + path + query;
otherwise `null`. -/
def toProxyPath (u : UrlParts) : Option (List Char) :=
  if jiliSuffix.isSuffixOf u.hostname then
    some ("/jili/".data ++ u.hostname ++ u.pathname ++ u.search)
  else none

/-- `toProxyPath` lifted to a URL string through a URL parser `parse`
(the source parses with `new URL` inside a try block and returns `null`
on a parse failure). -/
def toProxyPathStr (parse : List Char → Option UrlParts) (s : List Char) :
    Option (List Char) :=
  match parse s with
  | some u => toProxyPath u
  | none => none

/-- The decoded target of the `/jili` handler: `match[1]`, then
`targetPathWithoutQuery` after the `|| '/'` default (line 737), then
`match[3] || ''` (line 738). -/
structure DecodedTarget where
  host : List Char
  path : List Char
  query : List Char
deriving DecidableEq, Repr

/-- Tail of the `/jili` path grammar after the host capture: the groups
`(\/[^?]*)?(\?.*)?$` of the regex on line 730.  Returns the matched
`(group2, group3)` with the empty list for an absent group, or `none` when
the regex rejects.  `(\?.*)` uses the dot, so a query containing a line
terminator makes the anchor `$` unreachable and the whole match fail. -/
def splitTail : List Char → Option (List Char × List Char)
  | [] => some ([], [])
  | '/' :: r =>
    let g2 := ('/' :: r).takeWhile (fun c => !(c == '?'))
    let rest := ('/' :: r).dropWhile (fun c => !(c == '?'))
    match rest with
    | [] => some (g2, [])
    | '?' :: qr => if qr.all regexDot then some (g2, '?' :: qr) else none
    | _ => none
  | '?' :: qr => if qr.all regexDot then some ([], '?' :: qr) else none
  | _ => none

/-- The `/jili` handler path decode (lines 729-738): matches
`^\/([a-zA-Z0-9.-]*jiligames\.com)(\/[^?]*)?(\?.*)?$` against the
mount-stripped request url.  Since the host class cannot cross a slash
and no backtracked shorter host capture can be followed by a legal
continuation, the capture is exactly the maximal `hostChar` run, which
must end with the literal `jiligames.com`. -/
def fromProxyPath (fullPath : List Char) : Option DecodedTarget :=
  match fullPath with
  | '/' :: rest =>
    let run := rest.takeWhile hostChar
    let tail := rest.dropWhile hostChar
    if jiliSuffix.isSuffixOf run then
      match splitTail tail with
      | some (g2, g3) => some ⟨run, if g2.isEmpty then "/".data else g2, g3⟩
      | none => none
    else none
  | _ => none

/-- What Express's mounting does before the `/jili` handler runs: the
literal mount string `/jili` (five characters) is stripped from the
request url. -/
def mountStrip (p : List Char) : List Char := p.drop 5

/-- The action the `/jili` handler takes on an inbound request url
(lines 726-750): a 400 response when the grammar rejects, otherwise an
outbound request to `targetHost` with path `targetPath` =
`targetPathWithoutQuery + (match[3] || '')`. -/
inductive JiliAction where
  | badRequest (status : Nat)
  | forward (host : List Char) (path : List Char)
deriving DecidableEq, Repr

/-- The front of the `/jili` handler: decode, reject with 400, or build
the outbound request target (lines 729-749). -/
def jiliHandler (fullPath : List Char) : JiliAction :=
  match fromProxyPath fullPath with
  | none => .badRequest 400
  | some d => .forward d.host (d.path ++ d.query)

/-- Recognizer for the scheme alternative `https?:\/\/` of the HTML rewrite
regex (line 667): strips a literal `https://` or `http://`. -/
def stripScheme : List Char → Option (List Char)
  | 'h' :: 't' :: 't' :: 'p' :: 's' :: ':' :: '/' :: '/' :: r => some r
  | 'h' :: 't' :: 't' :: 'p' :: ':' :: '/' :: '/' :: r => some r
  | _ => none

/-- Whether a string starts with the four letters `http`; this is both the
test `gameUrl.startsWith('http')` of the Joker resolver (lines 1684, 1694)
and the shape every match of the rewrite regex starts with. -/
def startsWithHttp : List Char → Bool
  | 'h' :: 't' :: 't' :: 'p' :: _ => true
  | _ => false

/-- Whether `http` occurs anywhere in the string. -/
def hasHttp : List Char → Bool
  | [] => false
  | c :: rest => startsWithHttp (c :: rest) || hasHttp rest

/-- One anchored match attempt of the rewrite regex
`https?:\/\/([a-zA-Z0-9.-]*jiligames\.com)(\/[^"'<>\s]*)` (line 667) at the
head of the string.  After the scheme, the host capture must be the whole
maximal `hostChar` run (a shorter backtracked capture would be followed by
a host character, never by the mandatory `/`), the run must end with the
literal `jiligames.com`, and the next character must be `/`.  Returns
(group1, group2, remainder after the match). -/
def tryJiliUrlAt (s : List Char) : Option (List Char × List Char × List Char) :=
  match stripScheme s with
  | none => none
  | some rest =>
    let run := rest.takeWhile hostChar
    let tail := rest.dropWhile hostChar
    if jiliSuffix.isSuffixOf run then
      match tail with
      | '/' :: t => some (run, '/' :: t.takeWhile pathChar, t.dropWhile pathChar)
      | _ => none
    else none

/-- The global substitution
`body.replace(/https?:\/\/(...jiligames\.com)(\/[^"'<>\s]*)/g, '/jili/'+host+path)`
(lines 667-669), as a left-to-right scan: at each position, either the
regex matches and the replacement is emitted with scanning resuming after
the matched span (the replacement itself is never rescanned), or one
character is copied.  The fuel argument only bounds the recursion; one
unit is spent per step and every match consumes at least one character,
so `length` fuel is always enough. -/
def substJiliFuel : Nat → List Char → List Char
  | 0, s => s
  | _ + 1, [] => []
  | f + 1, c :: rest =>
    match tryJiliUrlAt (c :: rest) with
    | some (host, p, rem) => "/jili/".data ++ host ++ p ++ substJiliFuel f rem
    | none => c :: substJiliFuel f rest

/-- The URL substitution of `rewriteHtml` (line 667). -/
def substJili (s : List Char) : List Char := substJiliFuel s.length s

/-- One anchored match attempt of the Set-Cookie regex `domain=[^;]+;?`
with the `i` flag (line 792): a case-insensitive `domain=`, a nonempty run
of non-semicolon characters, then an optional semicolon.  Returns the
remainder after the matched (deleted) span. -/
def tryDomainAt : List Char → Option (List Char)
  | c1 :: c2 :: c3 :: c4 :: c5 :: c6 :: c7 :: rest =>
    if c1.toLower == 'd' && c2.toLower == 'o' && c3.toLower == 'm' &&
       c4.toLower == 'a' && c5.toLower == 'i' && c6.toLower == 'n' &&
       c7 == '=' then
      let v := rest.takeWhile (fun c => !(c == ';'))
      let r := rest.dropWhile (fun c => !(c == ';'))
      if v.isEmpty then none
      else some (match r with | ';' :: r2 => r2 | _ => r)
    else none
  | _ => none

/-- Whether a case-insensitive `domain=` occurs at the head of the string. -/
def startsDomainCI : List Char → Bool
  | c1 :: c2 :: c3 :: c4 :: c5 :: c6 :: c7 :: _ =>
    c1.toLower == 'd' && c2.toLower == 'o' && c3.toLower == 'm' &&
    c4.toLower == 'a' && c5.toLower == 'i' && c6.toLower == 'n' && c7 == '='
  | _ => false

/-- Whether a case-insensitive `domain=` occurs anywhere in the string. -/
def hasDomainCI : List Char → Bool
  | [] => false
  | c :: rest => startsDomainCI (c :: rest) || hasDomainCI rest

/-- The Set-Cookie rewrite `c.replace(/domain=[^;]+;?/gi, '')` (line 792),
as the same kind of left-to-right scan as `substJili`: each matched span is
deleted and scanning resumes after it. -/
def stripDomainFuel : Nat → List Char → List Char
  | 0, s => s
  | _ + 1, [] => []
  | f + 1, c :: rest =>
    match tryDomainAt (c :: rest) with
    | some rem => stripDomainFuel f rem
    | none => c :: stripDomainFuel f rest

/-- The Set-Cookie Domain-attribute strip applied to one cookie value. -/
def stripDomain (s : List Char) : List Char := stripDomainFuel s.length s

/-- The string test `loc.startsWith('/')` of line 781. -/
def startsWithSlash (l : List Char) : Bool :=
  match l with
  | '/' :: _ => true
  | _ => false

/-- The Location header rewrite of the `/jili` handler (lines 776-787):
an absolute URL on an allowed host becomes its proxy path; otherwise a
root-relative location is prefixed with `/jili/` + current target host;
otherwise the value passes through unchanged. -/
def rewriteLocation (parse : List Char → Option UrlParts)
    (targetHost loc : List Char) : List Char :=
  match toProxyPathStr parse loc with
  | some proxied => proxied
  | none =>
    if startsWithSlash loc then "/jili/".data ++ targetHost ++ loc else loc

/-- An upstream HTTP response, restricted to the fields the resolver code
reads: the status code, the `location` header, and the buffered body. -/
structure HttpResponse where
  statusCode : Nat
  location : Option (List Char)
  body : List Char
deriving DecidableEq, Repr

/-- One anchored match attempt of `url=Q([^Q]+)Q` at the head of the
string, for a quote character `q`: the three letters `url` are matched
case-insensitively (the regexes on line 1485 carry the `i` flag), then a
literal `=` and the quote, then a nonempty run of non-quote characters
that must be followed by the closing quote. -/
def tryUrlAt (q : Char) : List Char → Option (List Char)
  | c1 :: c2 :: c3 :: c4 :: c5 :: rest =>
    if c1.toLower == 'u' && c2.toLower == 'r' && c3.toLower == 'l' &&
       c4 == '=' && c5 == q then
      let cap := rest.takeWhile (fun c => !(c == q))
      let rest2 := rest.dropWhile (fun c => !(c == q))
      if cap.isEmpty || rest2.isEmpty then none else some cap
    else none
  | _ => none

/-- The leftmost match of `url=Q([^Q]+)Q` in the string (the `.match` calls
on line 1485): positions are tried left to right. -/
def findUrlQuote (q : Char) : List Char → Option (List Char)
  | [] => none
  | c :: rest =>
    match tryUrlAt q (c :: rest) with
    | some cap => some cap
    | none => findUrlQuote q rest

/-- The HTML-unescape `.replace(/&amp;/g, '&')` (line 1487). -/
def replaceAmp : List Char → List Char
  | '&' :: 'a' :: 'm' :: 'p' :: ';' :: rest => '&' :: replaceAmp rest
  | c :: rest => c :: replaceAmp rest
  | [] => []

/-- Step 1-2 of `resolveGameUrl` applied to the trial response body
(line 1485 and the unescape on line 1487): the single-quote pattern is
tried first, then the double-quote pattern, and the extracted URL has
every `&amp;` replaced by `&`.  Note the code never inspects the trial
response status code. -/
def parseTrialBody (body : List Char) : Option (List Char) :=
  match findUrlQuote squote body with
  | some cap => some (replaceAmp cap)
  | none =>
    match findUrlQuote dquote body with
    | some cap => some (replaceAmp cap)
    | none => none

/-- Error message literal of line 1486. -/
def msgNoRedirect : List Char := "Could not find game redirect URL".data

/-- Error message literal of line 1495. -/
def msgUnexpected : List Char := "Game server returned unexpected response".data

/-- Error message literal of line 1498. -/
def msgNoConvert : List Char := "Could not convert game URL to proxy path".data

/-- Lines 1484-1496 of `resolveGameUrl`, as a function of the two upstream
responses (the trial fetch and the login fetch): extract the login URL
from the trial body, then determine the final URL from the login response:
a 3xx status with a `location` header yields that location, a 200 status
yields the login URL itself, anything else is the unexpected-response
error. -/
def resolveFinalUrl (step1 step3 : HttpResponse) : Except (List Char) (List Char) :=
  match parseTrialBody step1.body with
  | none => .error msgNoRedirect
  | some loginTrialUrl =>
    if 300 ≤ step3.statusCode ∧ step3.statusCode < 400 ∧ step3.location.isSome then
      .ok (step3.location.getD [])
    else if step3.statusCode = 200 then
      .ok loginTrialUrl
    else
      .error msgUnexpected

/-- Terminal outcome of the resolver: a proxy path or an error message. -/
inductive ResolveOutcome where
  | ok (proxyPath : List Char)
  | err (msg : List Char)
deriving DecidableEq, Repr

/-- `resolveGameUrl` (lines 1483-1499) in full: the final URL from
`resolveFinalUrl` is encoded with `toProxyPath`; a host outside the
allowed suffix (or an unparseable URL) yields the conversion error. -/
def resolveGameUrl (parse : List Char → Option UrlParts)
    (step1 step3 : HttpResponse) : ResolveOutcome :=
  match resolveFinalUrl step1 step3 with
  | .error e => .err e
  | .ok finalUrl =>
    match toProxyPathStr parse finalUrl with
    | some p => .ok p
    | none => .err msgNoConvert

/-- The `Data` object of the Joker API envelope: the `GameUrl` field is
absent or a string. -/
structure JokerData where
  GameUrl : Option (List Char)
deriving DecidableEq, Repr

/-- The parsed `{Success, Data: {GameUrl}, Message}` envelope returned by
the Joker `PlayFreeGame` API (lines 1677-1681). -/
structure JokerEnvelope where
  Success : Bool
  Data : Option JokerData
  Message : Option (List Char)
deriving DecidableEq, Repr

/-- Terminal outcome of the Joker resolver: a demo URL or an error. -/
inductive JokerResult where
  | ok (demoUrl : List Char)
  | err (msg : List Char)
deriving DecidableEq, Repr

/-- The error message of line 1680: `json.Message || 'Joker API returned
no GameUrl'`, with the JavaScript falsiness of an empty string. -/
def jokerErrMsg (j : JokerEnvelope) : List Char :=
  match j.Message with
  | some m => if m.isEmpty then "Joker API returned no GameUrl".data else m
  | none => "Joker API returned no GameUrl".data

/-- Lines 1684-1686: a `GameUrl` that does not start with `http` is made
absolute against the `joker123.net` origin, inserting a slash unless the
value already starts with one. -/
def normalizeJokerUrl (g : List Char) : List Char :=
  if startsWithHttp g then g
  else
    "https://www.joker123.net".data ++
      (match g with | '/' :: _ => [] | _ => "/".data) ++ g

/-- The bounded redirect-follow loop of lines 1689-1699, parameterized by
the environment: `fetch` maps a URL to the response of GETting it and
`resolveRel` models `new URL(loc, base).href` for a relative location.
Each iteration fetches the current URL; a 301 or 302 response carrying a
`location` header moves to that location (resolved against the current URL
when not `http`-headed), anything else leaves the loop.  The fuel is the
loop bound. -/
def followRedirects (resolveRel : List Char → List Char → List Char)
    (fetch : List Char → HttpResponse) : Nat → List Char → List Char
  | 0, u => u
  | i + 1, u =>
    let r := fetch u
    if (r.statusCode == 301 || r.statusCode == 302) && r.location.isSome then
      let loc := r.location.getD []
      followRedirects resolveRel fetch i
        (if startsWithHttp loc then loc else resolveRel loc u)
    else u

/-- JavaScript truthiness of an optional string field: falsy when absent
or empty. -/
def truthyStr : Option (List Char) → Bool
  | none => false
  | some s => !s.isEmpty

/-- The optional chain `json.Data.GameUrl` behind the `!json.Data` guard. -/
def jokerGameUrl (j : JokerEnvelope) : Option (List Char) :=
  match j.Data with
  | none => none
  | some d => d.GameUrl

/-- `resolveJokerGameUrl` (lines 1668-1703) as a function of the POST
response and its parsed JSON (`none` models a `JSON.parse` throw): a
non-200 status or unparseable JSON fails; the combined check
`!json.Success || !json.Data || !json.Data.GameUrl` (line 1679) fails with
the envelope message; otherwise the normalized `GameUrl` is followed
through at most 5 plain redirects (`maxRedirects = 5`, line 1689) and the
resulting URL is accepted with no meta-refresh parse. -/
def resolveJokerGameUrl (resolveRel : List Char → List Char → List Char)
    (fetch : List Char → HttpResponse)
    (apiResp : HttpResponse) (parsed : Option JokerEnvelope) : JokerResult :=
  if apiResp.statusCode ≠ 200 then
    .err ("Joker API returned status ".data ++ (toString apiResp.statusCode).data)
  else
    match parsed with
    | none => .err "Invalid JSON from Joker API".data
    | some json =>
      if !json.Success || json.Data.isNone || !truthyStr (jokerGameUrl json) then
        .err (jokerErrMsg json)
      else
        .ok (followRedirects resolveRel fetch 5
          (normalizeJokerUrl ((jokerGameUrl json).getD [])))

/-- One anchored match attempt, at the head of `s`, of a referer regex of
the form `MARKER([a-zA-Z0-9.-]*SFX)` for a list of alternative literal
suffixes `sfxs` (the regexes on lines 2143 and 2151): after the literal
marker, the greedy class run may stop anywhere, so the capture is the
longest prefix of the maximal `hostChar` run that ends with one of the
suffixes. -/
def tryRefAt (sfxs : List (List Char)) (marker : List Char) (s : List Char) :
    Option (List Char) :=
  if marker.isPrefixOf s then
    let run := (s.drop marker.length).takeWhile hostChar
    (List.range (run.length + 1)).reverse.findSome? (fun k =>
      let cand := run.take k
      if sfxs.any (fun sfx => sfx.isSuffixOf cand) then some cand else none)
  else none

/-- The leftmost match of a referer regex in the header value: positions
are tried left to right, and a marker occurrence with no suitably suffixed
capture is skipped. -/
def findRefScan (sfxs : List (List Char)) (marker : List Char) :
    List Char → Option (List Char)
  | [] => none
  | c :: rest =>
    match tryRefAt sfxs marker (c :: rest) with
    | some h => some h
    | none => findRefScan sfxs marker rest

/-- `ref.match(/\/pp-proxy\/([a-zA-Z0-9.-]*pragmaticplay\.(?:net|com))/)`
(line 2143). -/
def findPpRef (ref : List Char) : Option (List Char) :=
  findRefScan ["pragmaticplay.net".data, "pragmaticplay.com".data]
    "/pp-proxy/".data ref

/-- `ref.match(/\/jili\/([a-zA-Z0-9.-]*jiligames\.com)/)` (line 2151). -/
def findJiliRef (ref : List Char) : Option (List Char) :=
  findRefScan ["jiligames.com".data] "/jili/".data ref

/-- The action of the catch-all middleware (lines 2130-2155). -/
inductive CatchAllAction where
  | next
  | redirect (status : Nat) (target : List Char)
deriving DecidableEq, Repr

/-- The explicit-route guard of the catch-all middleware (lines 2131-2139):
these paths fall through to the next handler. -/
def isGuardedPath (p : List Char) : Bool :=
  p == "/".data || p == "/game.html".data ||
  ("/api/".data).isPrefixOf p || ("/proxy/".data).isPrefixOf p ||
  ("/play/".data).isPrefixOf p || ("/jili/".data).isPrefixOf p ||
  ("/pp-proxy/".data).isPrefixOf p ||
  ("/catalog/".data).isPrefixOf p ||
  ("/css/".data).isPrefixOf p || ("/js/".data).isPrefixOf p ||
  ("/images/".data).isPrefixOf p

/-- The catch-all middleware (lines 2130-2155): guarded paths pass to the
next handler; otherwise a Pragmatic Play referer segment is looked for
first and wins, then a JILI referer segment, then the configured default
host `jiligames.com`; either way the original url is re-issued as a 307
redirect under the inferred proxy root.  An absent Referer header is the
empty string (`req.headers.referer || ''`, line 2140). -/
def catchAll (reqPath reqUrl referer : List Char) : CatchAllAction :=
  if isGuardedPath reqPath then .next
  else
    match findPpRef referer with
    | some ppHost => .redirect 307 ("/pp-proxy/".data ++ ppHost ++ reqUrl)
    | none =>
      .redirect 307
        ("/jili/".data ++ (findJiliRef referer).getD ("jiligames.com".data) ++ reqUrl)

/-- A simplified executable model of the platform URL constructor
`new URL` on simple absolute http(s) URLs (lowercase scheme and host, no
userinfo, port or fragment), agreeing with the platform parser on every
concrete URL string used in the witnesses below.  Theorems about the
repository functions are parameterized over an arbitrary parser; this
definition only instantiates them. -/
def parseUrlSimple (s : List Char) : Option UrlParts :=
  match stripScheme s with
  | none => none
  | some rest =>
    let host := rest.takeWhile (fun c => !(c == '/' || c == '?'))
    let tail := rest.dropWhile (fun c => !(c == '/' || c == '?'))
    if host.isEmpty then none
    else
      match tail with
      | [] => some ⟨host, "/".data, []⟩
      | '/' :: _ =>
        some ⟨host, tail.takeWhile (fun c => !(c == '?')),
              tail.dropWhile (fun c => !(c == '?'))⟩
      | _ => some ⟨host, "/".data, tail⟩

/-- Scanning helper: `takeWhile`/`dropWhile` split an append at the first
element of the right part when the left part satisfies the predicate
throughout and the right part starts with a failing element (or is empty). -/
theorem takeWhile_dropWhile_append (p : Char → Bool) (l r : List Char)
    (hl : ∀ c ∈ l, p c = true) (hr : ∀ c, r.head? = some c → p c = false) :
    (l ++ r).takeWhile p = l ∧ (l ++ r).dropWhile p = r := by
  induction l with
  | nil =>
    cases r with
    | nil => simp
    | cons c t =>
      have hc := hr c rfl
      simp [List.takeWhile_cons, List.dropWhile_cons, hc]
  | cons a l ih =>
    have ha : p a = true := hl a (List.mem_cons_self a l)
    have ihh := ih (fun c hc => hl c (List.mem_cons_of_mem a hc))
    simp [List.takeWhile_cons, List.dropWhile_cons, ha, ihh.1, ihh.2]

/-- A successful scheme strip means the string starts with `http`. -/
theorem startsWithHttp_of_stripScheme {s r : List Char}
    (h : stripScheme s = some r) : startsWithHttp s = true := by
  unfold stripScheme at h
  split at h
  · rfl
  · rfl
  · exact absurd h (by simp)

/-- A string with no occurrence of `http` is a fixed point of the HTML URL
substitution. -/
theorem substJili_eq_self_of_no_http :
    ∀ s : List Char, hasHttp s = false → substJili s = s := by
  intro s
  induction s with
  | nil => intro _; rfl
  | cons c rest ih =>
    intro h
    have h2 : startsWithHttp (c :: rest) = false ∧ hasHttp rest = false := by
      have := h
      unfold hasHttp at this
      exact ⟨by cases hs : startsWithHttp (c :: rest) <;> simp [hs] at this ⊢,
             by cases hs : hasHttp rest <;> simp [hs] at this ⊢⟩
    have hmatch : tryJiliUrlAt (c :: rest) = none := by
      unfold tryJiliUrlAt
      cases hs : stripScheme (c :: rest) with
      | none => rfl
      | some r => exact absurd (startsWithHttp_of_stripScheme hs) (by simp [h2.1])
    show substJiliFuel (rest.length + 1) (c :: rest) = c :: rest
    rw [substJiliFuel, hmatch]
    exact congrArg (c :: ·) (ih h2.2)

/-- A successful Domain-attribute match means the string starts with a
case-insensitive `domain=`. -/
theorem startsDomainCI_of_tryDomainAt {s r : List Char}
    (h : tryDomainAt s = some r) : startsDomainCI s = true := by
  unfold tryDomainAt at h
  split at h
  · rename_i c1 c2 c3 c4 c5 c6 c7 rest
    by_cases hc : (c1.toLower == 'd' && c2.toLower == 'o' && c3.toLower == 'm' &&
        c4.toLower == 'a' && c5.toLower == 'i' && c6.toLower == 'n' && c7 == '=') = true
    · exact hc
    · rw [if_neg (by simpa using hc)] at h; exact absurd h (by simp)
  · exact absurd h (by simp)

/-- A string with no case-insensitive occurrence of `domain=` is a fixed
point of the Set-Cookie Domain strip. -/
theorem stripDomain_eq_self_of_no_domain :
    ∀ s : List Char, hasDomainCI s = false → stripDomain s = s := by
  intro s
  induction s with
  | nil => intro _; rfl
  | cons c rest ih =>
    intro h
    have h2 : startsDomainCI (c :: rest) = false ∧ hasDomainCI rest = false := by
      have := h
      unfold hasDomainCI at this
      exact ⟨by cases hs : startsDomainCI (c :: rest) <;> simp [hs] at this ⊢,
             by cases hs : hasDomainCI rest <;> simp [hs] at this ⊢⟩
    have hmatch : tryDomainAt (c :: rest) = none := by
      cases hm : tryDomainAt (c :: rest) with
      | none => rfl
      | some r => exact absurd (startsDomainCI_of_tryDomainAt hm) (by simp [h2.1])
    show stripDomainFuel (rest.length + 1) (c :: rest) = c :: rest
    rw [stripDomainFuel, hmatch]
    exact congrArg (c :: ·) (ih h2.2)

/-- The tail grammar accepts exactly the encoded path-plus-query split:
a slash-headed query-free path followed by an empty or question-mark-headed
terminator-free query. -/
theorem splitTail_encode (pr s : List Char)
    (hpq : ('/' :: pr).all (fun c => !(c == '?')) = true)
    (hs : s = [] ∨ ∃ sr, s = '?' :: sr ∧ sr.all regexDot = true) :
    splitTail (('/' :: pr) ++ s) = some ('/' :: pr, s) := by
  have hsplit2 := takeWhile_dropWhile_append (fun c => !(c == '?')) ('/' :: pr) s
    (List.all_eq_true.mp hpq)
    (fun c hc => by
      rcases hs with rfl | ⟨sr, rfl, _⟩
      · simp at hc
      · simp only [List.head?_cons, Option.some.injEq] at hc
        rw [← hc]; rfl)
  show (match ('/' :: pr ++ s).dropWhile (fun c => !(c == '?')) with
    | [] => some (('/' :: pr ++ s).takeWhile (fun c => !(c == '?')), [])
    | '?' :: qr =>
      if qr.all regexDot then
        some (('/' :: pr ++ s).takeWhile (fun c => !(c == '?')), '?' :: qr)
      else none
    | _ => none) = some ('/' :: pr, s)
  rw [hsplit2.1, hsplit2.2]
  rcases hs with rfl | ⟨sr, rfl, hall⟩
  · rfl
  · simp [hall]

/-- Decoding an encoded triple: for a hostname over the host class ending
with the allowed suffix, a slash-headed query-free path, and an empty or
question-mark-headed terminator-free query, the `/jili` grammar recovers
the triple exactly. -/
theorem fromProxyPath_encode (h pr s : List Char)
    (hh : h.all hostChar = true) (hsuf : jiliSuffix.isSuffixOf h = true)
    (hpq : ('/' :: pr).all (fun c => !(c == '?')) = true)
    (hs : s = [] ∨ ∃ sr, s = '?' :: sr ∧ sr.all regexDot = true) :
    fromProxyPath ('/' :: (h ++ (('/' :: pr) ++ s))) = some ⟨h, '/' :: pr, s⟩ := by
  have hsplit := takeWhile_dropWhile_append hostChar h (('/' :: pr) ++ s)
    (List.all_eq_true.mp hh)
    (fun c hc => by
      simp only [List.cons_append, List.head?_cons, Option.some.injEq] at hc
      rw [← hc]; rfl)
  show (if jiliSuffix.isSuffixOf ((h ++ ('/' :: pr ++ s)).takeWhile hostChar) = true then
      match splitTail ((h ++ ('/' :: pr ++ s)).dropWhile hostChar) with
      | some (g2, g3) =>
        some (⟨(h ++ ('/' :: pr ++ s)).takeWhile hostChar,
          if g2.isEmpty = true then "/".data else g2, g3⟩ : DecodedTarget)
      | none => none
    else none) = some ⟨h, '/' :: pr, s⟩
  rw [hsplit.1, hsplit.2, if_pos hsuf, splitTail_encode pr s hpq hs]
  simp

/-- Unpacking of the well-formedness record into the pieces the decode
lemma consumes. -/
theorem wellFormedUrl_parts (u : UrlParts) (hu : wellFormedUrl u = true) :
    u.hostname.all hostChar = true ∧
    (∃ pr, u.pathname = '/' :: pr) ∧
    u.pathname.all (fun c => !(c == '?')) = true ∧
    (u.search = [] ∨ ∃ sr, u.search = '?' :: sr ∧ sr.all regexDot = true) := by
  unfold wellFormedUrl at hu
  simp only [Bool.and_eq_true, Bool.or_eq_true] at hu
  obtain ⟨⟨⟨⟨hne, hall⟩, hhead⟩, hnoq⟩, hsearch⟩ := hu
  refine ⟨hall, ?_, hnoq, ?_⟩
  · cases hp : u.pathname with
    | nil => rw [hp] at hhead; simp [List.headD] at hhead
    | cons a t =>
      rw [hp] at hhead
      simp only [List.headD_cons, beq_iff_eq] at hhead
      exact ⟨t, by rw [hhead]⟩
  · rcases hsearch with hemp | ⟨hhead2, halls⟩
    · exact Or.inl (List.isEmpty_iff.mp hemp)
    · right
      cases hq : u.search with
      | nil => rw [hq] at hhead2; simp [List.headD] at hhead2
      | cons a t =>
        rw [hq] at hhead2 halls
        simp only [List.headD_cons, beq_iff_eq] at hhead2
        refine ⟨t, by rw [hhead2], ?_⟩
        simp only [List.all_cons, Bool.and_eq_true] at halls
        exact halls.2

/-- The encode-then-mount-strip-then-decode round trip, for any
well-formed URL on an allowed host. -/
theorem roundtrip_key (w : UrlParts) (hw : wellFormedUrl w = true)
    (hsw : jiliSuffix.isSuffixOf w.hostname = true) :
    fromProxyPath
      (mountStrip ("/jili/".data ++ w.hostname ++ w.pathname ++ w.search)) =
      some ⟨w.hostname, w.pathname, w.search⟩ := by
  obtain ⟨hall, ⟨pr, hp⟩, hnoq, hsearch⟩ := wellFormedUrl_parts w hw
  have hms : mountStrip ("/jili/".data ++ w.hostname ++ w.pathname ++ w.search) =
      '/' :: ((w.hostname ++ w.pathname) ++ w.search) := rfl
  rw [hms, List.append_assoc, hp]
  rw [hp] at hnoq
  exact fromProxyPath_encode w.hostname pr w.search hall hsw hnoq hsearch

/-- C1: for every well-formed absolute URL whose hostname ends with the
allowed suffix `jiligames.com`, `toProxyPath` produces
`/jili/` + host + path + query, decoding the mount-stripped result with
the `/jili` handler grammar reconstructs `{host, path, query}` exactly,
and the encoding is injective over such URLs. -/
theorem C1_codec_roundtrip_injective (u v : UrlParts)
    (hu : wellFormedUrl u = true) (hsu : jiliSuffix.isSuffixOf u.hostname = true)
    (hv : wellFormedUrl v = true) (hsv : jiliSuffix.isSuffixOf v.hostname = true) :
    toProxyPath u = some ("/jili/".data ++ u.hostname ++ u.pathname ++ u.search) ∧
    fromProxyPath
      (mountStrip ("/jili/".data ++ u.hostname ++ u.pathname ++ u.search)) =
      some ⟨u.hostname, u.pathname, u.search⟩ ∧
    (toProxyPath u = toProxyPath v → u = v) := by
  have hencu : toProxyPath u =
      some ("/jili/".data ++ u.hostname ++ u.pathname ++ u.search) := by
    unfold toProxyPath; rw [if_pos hsu]
  have hencv : toProxyPath v =
      some ("/jili/".data ++ v.hostname ++ v.pathname ++ v.search) := by
    unfold toProxyPath; rw [if_pos hsv]
  refine ⟨hencu, roundtrip_key u hu hsu, ?_⟩
  intro heq
  rw [hencu, hencv] at heq
  have henc := Option.some.inj heq
  have hdec : fromProxyPath
      (mountStrip ("/jili/".data ++ u.hostname ++ u.pathname ++ u.search)) =
      fromProxyPath
      (mountStrip ("/jili/".data ++ v.hostname ++ v.pathname ++ v.search)) := by
    rw [henc]
  have h3 := (roundtrip_key u hu hsu).symm.trans
    (hdec.trans (roundtrip_key v hv hsv))
  have h4 := Option.some.inj h3
  cases u with
  | mk uh upn us =>
    cases v with
    | mk vh vpn vs =>
      simp only [DecodedTarget.mk.injEq] at h4
      simp only [UrlParts.mk.injEq]
      exact h4

/-- A concrete well-formed URL on an allowed host, exercising C1. -/
def urlW : UrlParts :=
  ⟨"casino-wbgame.jiligames.com".data, "/rx10000/".data, "?ssoKey=abc".data⟩

/-- Witness for C1 at a concrete URL. -/
theorem C1_codec_roundtrip_injective_witness :
    toProxyPath urlW =
      some ("/jili/".data ++ urlW.hostname ++ urlW.pathname ++ urlW.search) ∧
    fromProxyPath
      (mountStrip ("/jili/".data ++ urlW.hostname ++ urlW.pathname ++ urlW.search)) =
      some ⟨urlW.hostname, urlW.pathname, urlW.search⟩ ∧
    (toProxyPath urlW = toProxyPath urlW → urlW = urlW) :=
  C1_codec_roundtrip_injective urlW urlW (by decide) (by decide) (by decide)
    (by decide)

/-- C10: the allowed-host check is a bare string-suffix test.  The
hostname `eviljiligames.com` is neither `jiligames.com` itself nor a
dot-separated subdomain of it, yet `toProxyPath` encodes it and the
`/jili` grammar accepts the resulting path; and on every parsed URL,
`toProxyPath` is exactly the bare `endsWith('jiligames.com')` test,
making no reference to the configured `JILI_DOMAINS` list. -/
theorem C10_bare_suffix_check :
    ("eviljiligames.com".data ≠ "jiligames.com".data) ∧
    (".jiligames.com".data.isSuffixOf "eviljiligames.com".data = false) ∧
    toProxyPath ⟨"eviljiligames.com".data, "/x".data, []⟩ =
      some ("/jili/eviljiligames.com/x".data) ∧
    fromProxyPath (mountStrip ("/jili/eviljiligames.com/x".data)) =
      some ⟨"eviljiligames.com".data, "/x".data, []⟩ ∧
    (∀ u : UrlParts, toProxyPath u =
      if jiliSuffix.isSuffixOf u.hostname then
        some ("/jili/".data ++ u.hostname ++ u.pathname ++ u.search)
      else none) :=
  ⟨by decide, by decide, by decide, by decide, fun u => rfl⟩

/-- C6: a request url the `/jili` grammar rejects is answered with 400 and
no outbound request is constructed; an outbound request is only ever built
from a successful decode. -/
theorem C6_invalid_path_rejected (fullPath : List Char) :
    (fromProxyPath fullPath = none → jiliHandler fullPath = .badRequest 400) ∧
    (∀ hst pth, jiliHandler fullPath = .forward hst pth →
      fromProxyPath fullPath ≠ none) := by
  cases hd : fromProxyPath fullPath with
  | none => exact ⟨fun _ => by simp [jiliHandler, hd], fun hst pth hf => by
      simp [jiliHandler, hd] at hf⟩
  | some d => exact ⟨fun hn => absurd hn (by simp [hd]), fun hst pth _ => by
      simp [hd]⟩

/-- Witness for C6: a path whose host is not on the allowed suffix is
rejected with 400. -/
theorem C6_invalid_path_rejected_witness :
    fromProxyPath ("/evil.com/x".data) = none ∧
    jiliHandler ("/evil.com/x".data) = .badRequest 400 :=
  ⟨by decide, (C6_invalid_path_rejected ("/evil.com/x".data)).1 (by decide)⟩

/-- A concrete trial-response body carrying a single-quoted meta-refresh
url with an HTML-escaped ampersand. -/
def trialBody0 : List Char :=
  "meta refresh content=0;url=".data ++ [squote] ++
  "https://uat-wb-api.jiligames.com/wb/Login?t=1&amp;k=2".data ++
  [squote] ++ " x".data

/-- The raw capture of the single-quote pattern inside `trialBody0`. -/
def trialCap0 : List Char :=
  "https://uat-wb-api.jiligames.com/wb/Login?t=1&amp;k=2".data

/-- The login URL extracted from `trialBody0` after the `&amp;` unescape. -/
def loginUrl0 : List Char :=
  "https://uat-wb-api.jiligames.com/wb/Login?t=1&k=2".data

/-- C2 counterexample: the resolver never inspects the trial response
status.  A trial response with status 500 whose body carries the
meta-refresh pattern is processed and the login URL is extracted, so the
resolver does not proceed "only when the response has status 200". -/
theorem C2_counterexample_status_ignored :
    (500 ≠ 200) ∧
    resolveFinalUrl ⟨500, none, trialBody0⟩ ⟨200, none, []⟩ = .ok loginUrl0 :=
  ⟨by decide, by rfl⟩

/-- C2 (amended): the trial step tries the single-quote pattern first,
then the double-quote pattern, case-insensitively; the extracted URL has
every `&amp;` replaced by `&`; absence of a match is a hard failure
producing the parse error and no proxy path; and the outcome is
independent of the trial response status and headers. -/
theorem C2_trial_parse_behavior (step1 step3 : HttpResponse)
    (parse : List Char → Option UrlParts) :
    (∀ cap, findUrlQuote squote step1.body = some cap →
      parseTrialBody step1.body = some (replaceAmp cap)) ∧
    (findUrlQuote squote step1.body = none →
      ∀ cap, findUrlQuote dquote step1.body = some cap →
        parseTrialBody step1.body = some (replaceAmp cap)) ∧
    (parseTrialBody step1.body = none →
      resolveFinalUrl step1 step3 = .error msgNoRedirect ∧
      resolveGameUrl parse step1 step3 = .err msgNoRedirect) ∧
    resolveFinalUrl step1 step3 = resolveFinalUrl ⟨0, none, step1.body⟩ step3 := by
  refine ⟨fun cap h => by unfold parseTrialBody; rw [h],
          fun h cap h2 => by unfold parseTrialBody; rw [h, h2],
          fun h => ?_, rfl⟩
  have h1 : resolveFinalUrl step1 step3 = .error msgNoRedirect := by
    unfold resolveFinalUrl; rw [h]
  exact ⟨h1, by unfold resolveGameUrl; rw [h1]⟩

/-- Witness for C2 (amended) at a concrete trial body. -/
theorem C2_trial_parse_behavior_witness :
    parseTrialBody trialBody0 = some loginUrl0 := by
  have h := (C2_trial_parse_behavior ⟨500, none, trialBody0⟩ ⟨200, none, []⟩
    parseUrlSimple).1 trialCap0 (by decide)
  exact h.trans (by decide)

/-- Reduction of `resolveFinalUrl` once the trial body has parsed. -/
theorem resolveFinalUrl_eq (step1 step3 : HttpResponse) (loginUrl : List Char)
    (hp : parseTrialBody step1.body = some loginUrl) :
    resolveFinalUrl step1 step3 =
      if 300 ≤ step3.statusCode ∧ step3.statusCode < 400 ∧
          step3.location.isSome = true then
        .ok (step3.location.getD [])
      else if step3.statusCode = 200 then .ok loginUrl
      else .error msgUnexpected := by
  unfold resolveFinalUrl
  rw [hp]

/-- C3: at the login step, a 3xx response with a `Location` header makes
that location the final URL, a 200 response makes the login URL itself
final, and any other status is the unexpected-response error with no proxy
path produced. -/
theorem C3_login_step_outcomes (step1 step3 : HttpResponse)
    (parse : List Char → Option UrlParts) (loginUrl : List Char)
    (hp : parseTrialBody step1.body = some loginUrl) :
    (∀ loc, 300 ≤ step3.statusCode → step3.statusCode < 400 →
      step3.location = some loc → resolveFinalUrl step1 step3 = .ok loc) ∧
    (step3.statusCode = 200 → resolveFinalUrl step1 step3 = .ok loginUrl) ∧
    (¬(300 ≤ step3.statusCode ∧ step3.statusCode < 400) →
      step3.statusCode ≠ 200 →
      resolveFinalUrl step1 step3 = .error msgUnexpected ∧
      resolveGameUrl parse step1 step3 = .err msgUnexpected) := by
  refine ⟨?_, ?_, ?_⟩
  · intro loc h1 h2 h3
    rw [resolveFinalUrl_eq step1 step3 loginUrl hp,
      if_pos ⟨h1, h2, by rw [h3]; rfl⟩, h3]
    rfl
  · intro h200
    rw [resolveFinalUrl_eq step1 step3 loginUrl hp,
      if_neg (fun hc => by rw [h200] at hc; exact absurd hc.1 (by omega)),
      if_pos h200]
  · intro hnot h200
    have h1 : resolveFinalUrl step1 step3 = .error msgUnexpected := by
      rw [resolveFinalUrl_eq step1 step3 loginUrl hp,
        if_neg (fun hc => hnot ⟨hc.1, hc.2.1⟩), if_neg h200]
    exact ⟨h1, by unfold resolveGameUrl; rw [h1]⟩

/-- A concrete final location for the C3 witness. -/
def finalLoc0 : List Char :=
  "https://casino-wbgame.jiligames.com/Game?sid=9".data

/-- Witness for C3: a 302-with-Location login response, a 200 login
response, and a 404 login response, at concrete inputs. -/
theorem C3_login_step_outcomes_witness :
    resolveFinalUrl ⟨200, none, trialBody0⟩ ⟨302, some finalLoc0, []⟩ =
      .ok finalLoc0 ∧
    resolveFinalUrl ⟨200, none, trialBody0⟩ ⟨200, none, []⟩ = .ok loginUrl0 ∧
    resolveGameUrl parseUrlSimple ⟨200, none, trialBody0⟩ ⟨404, none, []⟩ =
      .err msgUnexpected :=
  ⟨(C3_login_step_outcomes ⟨200, none, trialBody0⟩ ⟨302, some finalLoc0, []⟩
      parseUrlSimple loginUrl0 (by decide)).1 finalLoc0 (by decide) (by decide)
      rfl,
   (C3_login_step_outcomes ⟨200, none, trialBody0⟩ ⟨200, none, []⟩
      parseUrlSimple loginUrl0 (by decide)).2.1 rfl,
   ((C3_login_step_outcomes ⟨200, none, trialBody0⟩ ⟨404, none, []⟩
      parseUrlSimple loginUrl0 (by decide)).2.2 (by decide) (by decide)).2⟩

/-- C4: a Location value that encodes as a proxy path (an absolute URL on
an allowed host) is replaced by that proxy path; otherwise a value
starting with `/` is prefixed with `/jili/` + current target host;
otherwise the value passes through unchanged. -/
theorem C4_location_rewrite (parse : List Char → Option UrlParts)
    (targetHost loc : List Char) :
    (∀ p, toProxyPathStr parse loc = some p →
      rewriteLocation parse targetHost loc = p) ∧
    (toProxyPathStr parse loc = none → startsWithSlash loc = true →
      rewriteLocation parse targetHost loc =
        "/jili/".data ++ targetHost ++ loc) ∧
    (toProxyPathStr parse loc = none → startsWithSlash loc = false →
      rewriteLocation parse targetHost loc = loc) := by
  refine ⟨fun p h => by unfold rewriteLocation; rw [h], ?_, ?_⟩
  · intro h hs
    unfold rewriteLocation
    rw [h]
    show (if startsWithSlash loc = true then
        "/jili/".data ++ targetHost ++ loc else loc) = _
    rw [if_pos hs]
  · intro h hs
    unfold rewriteLocation
    rw [h]
    show (if startsWithSlash loc = true then
        "/jili/".data ++ targetHost ++ loc else loc) = loc
    rw [if_neg (by simp [hs])]

/-- Witness for C4: the three behaviors of the Location rewrite at the
concrete values of the specification examples. -/
theorem C4_location_rewrite_witness :
    rewriteLocation parseUrlSimple ("sub.jiligames.com".data)
      ("https://sub.jiligames.com/x".data) =
      "/jili/sub.jiligames.com/x".data ∧
    rewriteLocation parseUrlSimple ("sub.jiligames.com".data)
      ("/relative".data) = "/jili/sub.jiligames.com/relative".data ∧
    rewriteLocation parseUrlSimple ("sub.jiligames.com".data)
      ("https://unrelated.com/x".data) = "https://unrelated.com/x".data :=
  ⟨(C4_location_rewrite parseUrlSimple ("sub.jiligames.com".data)
      ("https://sub.jiligames.com/x".data)).1
      ("/jili/sub.jiligames.com/x".data) (by decide),
   ((C4_location_rewrite parseUrlSimple ("sub.jiligames.com".data)
      ("/relative".data)).2.1 (by decide) (by decide)).trans (by decide),
   (C4_location_rewrite parseUrlSimple ("sub.jiligames.com".data)
      ("https://unrelated.com/x".data)).2.2 (by decide) (by decide)⟩

/-- C5 counterexample: the Set-Cookie regex deletes `Domain=...;` but not
the space before `Domain`, so the specification example does not produce
`sid=1; Path=/` — the actual output keeps a double space. -/
theorem C5_counterexample_leftover_space :
    stripDomain ("sid=1; Domain=upstream.example.com; Path=/".data) ≠
      "sid=1; Path=/".data := by decide

/-- C5 (amended): the `Domain=...;` attribute is removed from a cookie
value case-insensitively, but the whitespace preceding `Domain` survives:
the example input becomes `sid=1;  Path=/` with two spaces.  A value with
no case-insensitive `domain=` occurrence passes through unchanged. -/
theorem C5_domain_strip (s : List Char) :
    stripDomain ("sid=1; Domain=upstream.example.com; Path=/".data) =
      "sid=1;  Path=/".data ∧
    stripDomain ("sid=1; DOMAIN=x.example.com".data) = "sid=1; ".data ∧
    (hasDomainCI s = false → stripDomain s = s) :=
  ⟨by decide, by decide, stripDomain_eq_self_of_no_domain s⟩

/-- Witness for C5 (amended): a cookie with no Domain attribute passes
through unchanged. -/
theorem C5_domain_strip_witness :
    hasDomainCI ("sid=1; Path=/".data) = false ∧
    stripDomain ("sid=1; Path=/".data) = "sid=1; Path=/".data :=
  ⟨by decide, (C5_domain_strip ("sid=1; Path=/".data)).2.2 (by decide)⟩

/-- A Referer value carrying only a Pragmatic Play proxied segment. -/
def ppRef0 : List Char := "https://h/pp-proxy/x.pragmaticplay.net/g".data

/-- C7 counterexample: the catch-all checks the Pragmatic Play referer
pattern first.  For a request to `/foo` whose Referer has no `/jili/`
segment at all, the claim predicts a 307 to `/jili/jiligames.com/foo`,
but a `/pp-proxy/` referer segment redirects to the Pragmatic Play proxy
root instead. -/
theorem C7_counterexample_pp_priority :
    isGuardedPath ("/foo".data) = false ∧
    findJiliRef ppRef0 = none ∧
    catchAll ("/foo".data) ("/foo".data) ppRef0 =
      .redirect 307 ("/pp-proxy/x.pragmaticplay.net/foo".data) ∧
    ("/pp-proxy/x.pragmaticplay.net/foo".data ≠
      "/jili/jiligames.com/foo".data) :=
  ⟨by decide, by decide, by decide, by decide⟩

/-- C7 (amended): on an unguarded path, a Pragmatic Play referer segment
is looked for first and redirects 307 to the `/pp-proxy/` root; only when
none is present does a `/jili/{host}` referer segment redirect 307 to
`/jili/{host}{originalPath}`, with the default host `jiligames.com` used
when neither segment is found. -/
theorem C7_catchall_referer (reqPath reqUrl referer : List Char)
    (hg : isGuardedPath reqPath = false) :
    (∀ p, findPpRef referer = some p →
      catchAll reqPath reqUrl referer =
        .redirect 307 ("/pp-proxy/".data ++ p ++ reqUrl)) ∧
    (findPpRef referer = none → ∀ h, findJiliRef referer = some h →
      catchAll reqPath reqUrl referer =
        .redirect 307 ("/jili/".data ++ h ++ reqUrl)) ∧
    (findPpRef referer = none → findJiliRef referer = none →
      catchAll reqPath reqUrl referer =
        .redirect 307 ("/jili/jiligames.com".data ++ reqUrl)) := by
  refine ⟨?_, ?_, ?_⟩
  · intro p hpp
    unfold catchAll
    rw [if_neg (by simp [hg]), hpp]
  · intro hpp h hj
    unfold catchAll
    rw [if_neg (by simp [hg]), hpp, hj]
    rfl
  · intro hpp hj
    unfold catchAll
    rw [if_neg (by simp [hg]), hpp, hj]
    rfl

/-- A Referer value carrying a JILI proxied segment. -/
def jiliRef0 : List Char := "https://host/jili/sub.jiligames.com/bar".data

/-- Witness for C7 (amended): the JILI referer inference at concrete
values, preserving the original path under the inferred host. -/
theorem C7_catchall_referer_witness :
    isGuardedPath ("/foo".data) = false ∧
    catchAll ("/foo".data) ("/foo".data) jiliRef0 =
      .redirect 307 ("/jili/sub.jiligames.com/foo".data) :=
  ⟨by decide,
   ((C7_catchall_referer ("/foo".data) ("/foo".data) jiliRef0 (by decide)).2.1
      (by decide) ("sub.jiligames.com".data) (by decide)).trans (by decide)⟩

/-- Reduction of the Joker resolver once the API response status is 200. -/
theorem resolveJoker_200 (resolveRel : List Char → List Char → List Char)
    (fetch : List Char → HttpResponse) (apiResp : HttpResponse)
    (env : JokerEnvelope) (hs : apiResp.statusCode = 200) :
    resolveJokerGameUrl resolveRel fetch apiResp (some env) =
      if !env.Success || env.Data.isNone || !truthyStr (jokerGameUrl env) then
        .err (jokerErrMsg env)
      else
        .ok (followRedirects resolveRel fetch 5
          (normalizeJokerUrl ((jokerGameUrl env).getD []))) := by
  unfold resolveJokerGameUrl
  rw [if_neg (fun hne => hne hs)]

/-- C8: the Joker resolver fails on a falsy `Success`, an absent `Data`,
or an absent `GameUrl` (surfacing the envelope message); otherwise it
follows the normalized `GameUrl` through the bounded 5-iteration redirect
loop, where only a 301 or 302 response carrying a `location` header
continues the loop and anything else (or exhausted fuel) accepts the
current URL, with no meta-refresh parsing involved. -/
theorem C8_joker_resolver (resolveRel : List Char → List Char → List Char)
    (fetch : List Char → HttpResponse) (apiResp : HttpResponse)
    (env : JokerEnvelope) (hs : apiResp.statusCode = 200) :
    (env.Success = false →
      resolveJokerGameUrl resolveRel fetch apiResp (some env) =
        .err (jokerErrMsg env)) ∧
    (env.Data = none →
      resolveJokerGameUrl resolveRel fetch apiResp (some env) =
        .err (jokerErrMsg env)) ∧
    (∀ d, env.Data = some d → d.GameUrl = none →
      resolveJokerGameUrl resolveRel fetch apiResp (some env) =
        .err (jokerErrMsg env)) ∧
    (∀ d g, env.Success = true → env.Data = some d → d.GameUrl = some g →
      g.isEmpty = false →
      resolveJokerGameUrl resolveRel fetch apiResp (some env) =
        .ok (followRedirects resolveRel fetch 5 (normalizeJokerUrl g))) ∧
    (∀ u n, (((fetch u).statusCode == 301 || (fetch u).statusCode == 302) &&
        (fetch u).location.isSome) = false →
      followRedirects resolveRel fetch (n + 1) u = u) ∧
    (∀ u, followRedirects resolveRel fetch 0 u = u) := by
  refine ⟨?_, ?_, ?_, ?_, ?_, fun u => rfl⟩
  · intro hsuc
    rw [resolveJoker_200 resolveRel fetch apiResp env hs,
      if_pos (by simp [hsuc])]
  · intro hdat
    rw [resolveJoker_200 resolveRel fetch apiResp env hs,
      if_pos (by simp [hdat])]
  · intro d hdat hgu
    rw [resolveJoker_200 resolveRel fetch apiResp env hs,
      if_pos (by simp [truthyStr, jokerGameUrl, hdat, hgu])]
  · intro d g hsuc hdat hgu hne
    have hj : jokerGameUrl env = some g := by
      unfold jokerGameUrl
      rw [hdat]
      exact hgu
    rw [resolveJoker_200 resolveRel fetch apiResp env hs,
      if_neg (by simp [hsuc, hdat, hj, truthyStr, hne]), hj]
    rfl
  · intro u n hcond
    simp only [followRedirects]
    simp [hcond]

/-- A concrete fetch environment for the C8 witness: the initial game URL
answers with a 302 to the game server; everything else answers 200. -/
def fetch0 : List Char → HttpResponse := fun u =>
  if u == "https://www.joker123.net/game1".data then
    ⟨302, some ("https://gs.joker123.net/play".data), []⟩
  else ⟨200, none, []⟩

/-- A trivial relative-location resolver for the C8 witness (unused on
absolute locations). -/
def rel0 : List Char → List Char → List Char := fun l _ => l

/-- A successful Joker envelope with a root-relative GameUrl. -/
def env0 : JokerEnvelope := ⟨true, some ⟨some ("/game1".data)⟩, none⟩

/-- Witness for C8: a successful envelope whose normalized URL is followed
through one 302 redirect to the final game-server URL. -/
theorem C8_joker_resolver_witness :
    resolveJokerGameUrl rel0 fetch0 ⟨200, none, []⟩ (some env0) =
      .ok ("https://gs.joker123.net/play".data) :=
  ((C8_joker_resolver rel0 fetch0 ⟨200, none, []⟩ env0 rfl).2.2.2.1
    ⟨some ("/game1".data)⟩ ("/game1".data) rfl rfl rfl (by decide)).trans
    (by decide)

/-- A body whose rewritten URL has another absolute URL inside its path. -/
def nested0 : List Char :=
  "https://a.jiligames.com/https://b.jiligames.com/x".data

/-- C9 counterexample: the substitution is not idempotent.  In the first
pass the greedy path class swallows the embedded URL, producing the
rewritten occurrence `/jili/a.jiligames.com/https://b.jiligames.com/x`;
a second pass rewrites the embedded URL inside that occurrence, so the
already-rewritten occurrence does not survive unchanged. -/
theorem C9_counterexample_nested_url :
    substJili (substJili nested0) ≠ substJili nested0 := by decide

/-- C9 (amended): a rewritten occurrence is never prefixed a second time
at its start, because every match begins with `http` and a rewritten
occurrence begins with `/jili/`; re-application leaves the output
unchanged whenever the first pass left no `http` occurrence behind.  Full
unchanged-ness fails only when the path portion of a rewritten URL itself
embeds an absolute URL, which a second pass rewrites in place. -/
theorem C9_rewrite_fixpoint (s : List Char)
    (h : hasHttp (substJili s) = false) :
    substJili (substJili s) = substJili s :=
  substJili_eq_self_of_no_http (substJili s) h

/-- A body whose single rewrite leaves no `http` occurrence. -/
def plain0 : List Char :=
  "<a href=https://a.jiligames.com/play>click</a>".data

/-- Witness for C9 (amended): a typical body is a fixed point of the
second application. -/
theorem C9_rewrite_fixpoint_witness :
    hasHttp (substJili plain0) = false ∧
    substJili (substJili plain0) = substJili plain0 :=
  ⟨by decide, C9_rewrite_fixpoint plain0 (by decide)⟩
